import Mathlib

/-!
Verification development for the `duizendstra/go` repository.

This file shallowly embeds the token-cache and service-account credential
exchange core of the repository and proves (or refutes) the specification
claims about it.

Embedded source files:
* `src/google/auth/serviceaccount/token_cache.go` (the revision whose
  `getKey` joins the scopes with commas and whose `GetToken` takes the
  plain mutex; the claims cite its line numbers): `getKey`, `GetToken`,
  `SetToken`, `NewTokenCache`.
* `src/unnamed/part_004`, second revision (package `serviceaccount`):
  `JWTClaims`, `createJWTAssertion`, `getAccessToken`,
  `GenerateGoogleHTTPClient`.
* `src/google/apierrors/apierrors.go`: `GoogleAPIError`, `HandleError`.

External library behaviour that the embedded code calls into is modelled
from the libraries' documented semantics:
* `golang.org/x/oauth2.Token.Valid` (non-empty access token, and the
  expiry, when set, must not lie within the 10-second
  `defaultExpiryDelta` of the current time),
* `encoding/json` decoding of `struct { AccessToken string
  `json:"access_token"` }` (a small JSON parser below),
* `net/http.Error` (writes the message plus a trailing newline and the
  given status code).

Time is modelled as an integer number of seconds.  Go maps are modelled
as functions `String → Option ...`; the mutexes guarding them are not
modelled (all embedded operations are the atomic critical sections).
-/

namespace GoSpec

/-- Embeds the fields of `golang.org/x/oauth2.Token` that this repository
uses: the access-token string and the expiry.  `expiry = none` models the
Go zero `time.Time` (`Expiry.IsZero()`), a token that never expires. -/
structure Token where
  accessToken : String
  expiry : Option Int
deriving DecidableEq, Repr

/-- Embeds `oauth2.Token.expired`: a token whose expiry is set counts as
expired once `t.Expiry.Add(-expiryDelta).Before(now)` where the delta
defaults to `defaultExpiryDelta = 10` seconds (the unexported
`expiryDelta` field is zero for every token this repository builds). -/
def Token.expired (t : Token) (now : Int) : Bool :=
  match t.expiry with
  | none => false
  | some e => decide (e - 10 < now)

/-- Embeds `oauth2.Token.Valid`: non-nil (handled by the `Option` at the
use sites), non-empty access token, and not expired. -/
def Token.Valid (t : Token) (now : Int) : Bool :=
  t.accessToken != "" && !(t.expired now)

/-- Embeds the `TokenCache` struct of
`src/google/auth/serviceaccount/token_cache.go`: the `tokens` map from
cache key to token.  The mutex is not modelled. -/
structure TokenCache where
  tokens : String → Option Token

/-- Embeds `NewTokenCache`: an empty map. -/
def NewTokenCache : TokenCache :=
  ⟨fun _ => none⟩

/-- Embeds `getKey` of `token_cache.go` (lines 107-109):
`fmt.Sprintf("%s|%s", userEmail, strings.Join(scopes, ","))`. -/
def getKey (userEmail : String) (scopes : List String) : String :=
  userEmail ++ "|" ++ String.intercalate "," scopes

/-- Embeds `TokenCache.SetToken` (lines 135-141): unconditionally store
the token under the derived key. -/
def TokenCache.SetToken (c : TokenCache) (userEmail : String)
    (scopes : List String) (token : Token) : TokenCache :=
  ⟨fun k => if k = getKey userEmail scopes then some token else c.tokens k⟩

/-- Embeds `TokenCache.GetToken` (lines 113-132).  Returns the Go result
pair `(token, exists)` together with the cache state after the call (the
Go method mutates the receiver in place when it deletes an expired
entry).  The `!exists || token == nil` guard of the source collapses to
the `none` case here because tokens are values in this model. -/
def TokenCache.GetToken (c : TokenCache) (userEmail : String)
    (scopes : List String) (now : Int) : Option Token × Bool × TokenCache :=
  let key := getKey userEmail scopes
  match c.tokens key with
  | none => (none, false, c)
  | some token =>
    if !(token.Valid now) then
      (none, false, ⟨fun k => if k = key then none else c.tokens k⟩)
    else
      (some token, true, c)

/-- Embeds the `JWTClaims` struct of `src/unnamed/part_004` (lines
163-170). -/
structure JWTClaims where
  iss : String
  sub : String
  scope : String
  aud : String
  iat : Int
  exp : Int
deriving DecidableEq, Repr

/-- Embeds `createJWTAssertion` of `src/unnamed/part_004` (lines
203-224).  The source builds the `JWTClaims` struct and JSON-marshals it
(`json.Marshal` cannot fail for this struct); we return the claim set
itself, with `now` passed explicitly in place of `time.Now().Unix()`. -/
def createJWTAssertion (targetServiceAccount userEmail scopes : String)
    (now : Int) : Except String JWTClaims :=
  if targetServiceAccount = "" || userEmail = "" || scopes = "" then
    .error "service account, user email, and scopes must all be provided"
  else
    .ok { iss := targetServiceAccount
          sub := userEmail
          scope := scopes
          aud := "https://oauth2.googleapis.com/token"
          iat := now
          exp := now + 3600 }

/-- Embeds the `GoogleAPIError` struct of
`src/google/apierrors/apierrors.go` (the `errors.GoogleAPIError` used by
`part_004` carries the same `StatusCode`/`Body` fields). -/
structure GoogleAPIError where
  statusCode : Int
  body : String
  errorCode : String
  errorMessage : String
deriving DecidableEq, Repr

/-- A Go `error` value as this core produces them: either a
`*GoogleAPIError` or any other error carrying only a message (the
`fmt.Errorf` results; the type switch in `HandleError` distinguishes
exactly these two shapes). -/
inductive GoError where
  | apiError (e : GoogleAPIError)
  | errorString (msg : String)
deriving DecidableEq, Repr

/-- An HTTP response as received from the token endpoint: status code and
raw body. -/
structure HttpResp where
  statusCode : Int
  body : String
deriving DecidableEq, Repr

/-- JSON values, for modelling `encoding/json` decoding. -/
inductive Json where
  | jnull
  | jbool (b : Bool)
  | jnum (raw : String)
  | jstr (s : String)
  | jarr (elems : List Json)
  | jobj (fields : List (String × Json))

/-- True for JSON whitespace characters. -/
def isJsonWs (c : Char) : Bool :=
  c = ' ' || c = '\t' || c = '\n' || c = '\r'

/-- Drop leading JSON whitespace. -/
def skipWs (cs : List Char) : List Char :=
  cs.dropWhile isJsonWs

/-- Value of a hexadecimal digit, computed from its code point (`0`-`9`
are 48-57, `a`-`f` are 97-102, `A`-`F` are 65-70). -/
def hexDigitVal (c : Char) : Option Nat :=
  let n := c.toNat
  if 48 ≤ n && n ≤ 57 then some (n - 48)
  else if 97 ≤ n && n ≤ 102 then some (n - 87)
  else if 65 ≤ n && n ≤ 70 then some (n - 55)
  else none

/-- Decode one JSON string escape (the character after the backslash).
`\uXXXX` is mapped to the code point directly; surrogate-pair combining
is not modelled (no claim depends on it). -/
def decodeJsonEscape (e : Char) (rest : List Char) : Option (Char × List Char) :=
  if e = '\"' then some ('\"', rest)
  else if e = '\\' then some ('\\', rest)
  else if e = '/' then some ('/', rest)
  else if e = 'b' then some ('\x08', rest)
  else if e = 'f' then some ('\x0c', rest)
  else if e = 'n' then some ('\n', rest)
  else if e = 'r' then some ('\r', rest)
  else if e = 't' then some ('\t', rest)
  else if e = 'u' then
    match rest with
    | h1 :: h2 :: h3 :: h4 :: rest2 =>
      match hexDigitVal h1, hexDigitVal h2, hexDigitVal h3, hexDigitVal h4 with
      | some a, some b, some c, some d =>
        some (Char.ofNat (((a * 16 + b) * 16 + c) * 16 + d), rest2)
      | _, _, _, _ => none
    | _ => none
  else none

/-- Parse the body of a JSON string (after the opening quote), fuelled by
the remaining input length.  Raw control characters are rejected, as in
`encoding/json`. -/
def parseJsonStringBody : Nat → List Char → Option (String × List Char)
  | 0, _ => none
  | fuel + 1, cs =>
    match cs with
    | [] => none
    | c :: rest =>
      if c = '\"' then some ("", rest)
      else if c = '\\' then
        match rest with
        | [] => none
        | e :: rest2 =>
          match decodeJsonEscape e rest2 with
          | none => none
          | some (ch, rest3) =>
            match parseJsonStringBody fuel rest3 with
            | none => none
            | some (s, rem) => some (String.mk (ch :: s.data), rem)
      else if c.toNat < 32 then none
      else
        match parseJsonStringBody fuel rest with
        | none => none
        | some (s, rem) => some (String.mk (c :: s.data), rem)

/-- True for an ASCII decimal digit (code points 48-57). -/
def isJsonDigit (c : Char) : Bool :=
  48 ≤ c.toNat && c.toNat ≤ 57

/-- Split off a maximal run of decimal digits. -/
def takeJsonDigits (cs : List Char) : List Char × List Char :=
  cs.span isJsonDigit

/-- Parse an optional JSON fraction part (`.` followed by digits). -/
def parseJsonFracPart (cs : List Char) : Option (List Char × List Char) :=
  match cs with
  | c :: rest =>
    if c = '.' then
      match takeJsonDigits rest with
      | ([], _) => none
      | (ds, r) => some (c :: ds, r)
    else some ([], cs)
  | [] => some ([], [])

/-- Parse an optional JSON exponent part (`e`/`E`, optional sign,
digits). -/
def parseJsonExpPart (cs : List Char) : Option (List Char × List Char) :=
  match cs with
  | c :: rest =>
    if c = 'e' || c = 'E' then
      let (sgn, rest2) :=
        match rest with
        | s :: r => if s = '+' || s = '-' then ([s], r) else ([], s :: r)
        | [] => (([] : List Char), ([] : List Char))
      match takeJsonDigits rest2 with
      | ([], _) => none
      | (ds, r) => some (c :: (sgn ++ ds), r)
    else some ([], cs)
  | [] => some ([], [])

/-- Parse a JSON number starting at the head of the input, returning its
raw characters. -/
def parseJsonNumber (cs : List Char) : Option (List Char × List Char) :=
  let (sgn, cs1) :=
    match cs with
    | c :: rest => if c = '-' then ([c], rest) else (([] : List Char), cs)
    | [] => (([] : List Char), ([] : List Char))
  match cs1 with
  | [] => none
  | c :: rest =>
    if c = '0' then
      match parseJsonFracPart rest with
      | none => none
      | some (fp, r1) =>
        match parseJsonExpPart r1 with
        | none => none
        | some (ep, r2) => some (sgn ++ [c] ++ fp ++ ep, r2)
    else if isJsonDigit c then
      let (ds, r0) := takeJsonDigits rest
      match parseJsonFracPart r0 with
      | none => none
      | some (fp, r1) =>
        match parseJsonExpPart r1 with
        | none => none
        | some (ep, r2) => some (sgn ++ (c :: ds) ++ fp ++ ep, r2)
    else none

mutual

/-- Parse one JSON value (fuelled).  Mirrors what
`json.NewDecoder(r).Decode` accepts for a single value; anything left
after the first complete value stays in the decoder's buffer and is not
an error. -/
def parseJsonValue : Nat → List Char → Option (Json × List Char)
  | 0, _ => none
  | fuel + 1, cs =>
    match skipWs cs with
    | [] => none
    | c :: rest =>
      if c = 'n' then
        match rest with
        | 'u' :: 'l' :: 'l' :: r => some (Json.jnull, r)
        | _ => none
      else if c = 't' then
        match rest with
        | 'r' :: 'u' :: 'e' :: r => some (Json.jbool true, r)
        | _ => none
      else if c = 'f' then
        match rest with
        | 'a' :: 'l' :: 's' :: 'e' :: r => some (Json.jbool false, r)
        | _ => none
      else if c = '\"' then
        match parseJsonStringBody (rest.length + 1) rest with
        | none => none
        | some (s, r) => some (Json.jstr s, r)
      else if c = '\x7b' then
        match skipWs rest with
        | [] => none
        | d :: r2 =>
          if d = '\x7d' then some (Json.jobj [], r2)
          else
            match parseJsonMembers fuel (d :: r2) with
            | none => none
            | some (fs, r3) => some (Json.jobj fs, r3)
      else if c = '[' then
        match skipWs rest with
        | [] => none
        | d :: r2 =>
          if d = ']' then some (Json.jarr [], r2)
          else
            match parseJsonElements fuel (d :: r2) with
            | none => none
            | some (vs, r3) => some (Json.jarr vs, r3)
      else if c = '-' || isJsonDigit c then
        match parseJsonNumber (c :: rest) with
        | none => none
        | some (raw, r) => some (Json.jnum (String.mk raw), r)
      else none

/-- Parse the members of a JSON object after its opening brace (at least
one member; the empty object is handled by the caller). -/
def parseJsonMembers : Nat → List Char → Option (List (String × Json) × List Char)
  | 0, _ => none
  | fuel + 1, cs =>
    match skipWs cs with
    | q :: rest =>
      if q = '\"' then
        match parseJsonStringBody (rest.length + 1) rest with
        | none => none
        | some (key, r1) =>
          match skipWs r1 with
          | colon :: r2 =>
            if colon = ':' then
              match parseJsonValue fuel r2 with
              | none => none
              | some (v, r3) =>
                match skipWs r3 with
                | sep :: r4 =>
                  if sep = ',' then
                    match parseJsonMembers fuel r4 with
                    | none => none
                    | some (fs, r5) => some ((key, v) :: fs, r5)
                  else if sep = '\x7d' then some ([(key, v)], r4)
                  else none
                | [] => none
            else none
          | [] => none
      else none
    | [] => none

/-- Parse the elements of a JSON array after its opening bracket (at
least one element; the empty array is handled by the caller). -/
def parseJsonElements : Nat → List Char → Option (List Json × List Char)
  | 0, _ => none
  | fuel + 1, cs =>
    match parseJsonValue fuel cs with
    | none => none
    | some (v, r1) =>
      match skipWs r1 with
      | sep :: r2 =>
        if sep = ',' then
          match parseJsonElements fuel r2 with
          | none => none
          | some (vs, r3) => some (v :: vs, r3)
        else if sep = ']' then some ([v], r2)
        else none
      | [] => none

end

/-- ASCII case-insensitive equality on character lists (Go
`encoding/json` matches object keys to struct field tags case
insensitively). -/
def asciiFoldEqList : List Char → List Char → Bool
  | [], [] => true
  | a :: as, b :: bs => (a.toLower = b.toLower) && asciiFoldEqList as bs
  | _, _ => false

/-- ASCII case-insensitive equality on strings. -/
def asciiFoldEq (a b : String) : Bool :=
  asciiFoldEqList a.data b.data

/-- Decoding one matched JSON value into the Go `string` field: a JSON
string assigns it, JSON `null` is a no-op, anything else is an
`UnmarshalTypeError`. -/
def decodeStringField (cur : String) (v : Json) : Except String String :=
  match v with
  | .jstr s => .ok s
  | .jnull => .ok cur
  | _ => .error "cannot unmarshal value into field of type string"

/-- Walk the object fields in order, assigning every key that matches
`access_token` (later duplicates overwrite, as in `encoding/json`); the
first type error is kept. -/
def decodeAccessTokenFields : String → List (String × Json) → Except String String
  | cur, [] => .ok cur
  | cur, (k, v) :: fs =>
    if asciiFoldEq k "access_token" then
      match decodeStringField cur v with
      | .error e => .error e
      | .ok s => decodeAccessTokenFields s fs
    else decodeAccessTokenFields cur fs

/-- Embeds `json.NewDecoder(resp.Body).Decode(&tokenResponse)` for
`var tokenResponse struct \x7b AccessToken string \x7d` with tag
`access_token`: decode the first JSON value of the body; `null` leaves
the zero value (empty string) without error, an object assigns matching
fields (a missing `access_token` key leaves the empty string, without
error), any other value shape or a syntax error fails. -/
def decodeAccessTokenResponse (body : String) : Except String String :=
  match parseJsonValue (body.length + 2) body.data with
  | none => .error "invalid JSON in token response"
  | some (v, _) =>
    match v with
    | .jnull => .ok ""
    | .jobj fields => decodeAccessTokenFields "" fields
    | _ => .error "cannot unmarshal value into Go struct"

/-- Embeds the response handling of `getAccessToken` of
`src/unnamed/part_004` (lines 240-257): on a status other than
`http.StatusOK` (exactly 200), return `&errors.GoogleAPIError\x7bStatusCode,
Body\x7d` (the remaining fields are Go zero values); on 200, JSON-decode the
body and return the `access_token` field, wrapping a decode failure in
`error unmarshaling token response`.  The form POST itself is modelled in
`GenerateGoogleHTTPClient`'s environment; this function consumes the
response. -/
def getAccessToken (resp : HttpResp) : Except GoError String :=
  if resp.statusCode ≠ 200 then
    .error (.apiError { statusCode := resp.statusCode, body := resp.body
                        errorCode := "", errorMessage := "" })
  else
    match decodeAccessTokenResponse resp.body with
    | .error msg => .error (.errorString ("error unmarshaling token response: " ++ msg))
    | .ok tok => .ok tok

/-- True exactly when the result is an upstream `GoogleAPIError`. -/
def isUpstreamError (r : Except GoError String) : Bool :=
  match r with
  | .error (.apiError _) => true
  | _ => false

/-- The collaborators `GenerateGoogleHTTPClient` calls out to: the IAM
signer (`iamClient.SignJwt`; the payload is the marshalled claim set,
kept structured here) and the form POST to the token endpoint
(`http.PostForm`, returning the HTTP response). -/
structure FactoryEnv where
  signJwt : String → JWTClaims → Except String String
  postForm : String → List (String × String) → Except String HttpResp

/-- The client `oauth2.NewClient(ctx, oauth2.StaticTokenSource(tok))`
produces, modelled by the bearer token every outbound request will
carry. -/
structure HttpClient where
  bearerToken : String
deriving DecidableEq, Repr

/-- Observable calls `GenerateGoogleHTTPClient` makes to shared
collaborators.  The cache constructors exist so that cache traffic would
be visible in a trace: the source function performs none (it neither
reads nor writes any `TokenCache`). -/
inductive NetEvent where
  | signJwtCall (name : String) (payload : JWTClaims)
  | tokenPostCall (url : String) (assertion : String)
  | cacheGetCall (key : String)
  | cacheSetCall (key : String)
deriving DecidableEq, Repr

/-- True for the cache events of a trace. -/
def NetEvent.isCacheEvent : NetEvent → Bool
  | .cacheGetCall _ => true
  | .cacheSetCall _ => true
  | _ => false

/-- Embeds `GenerateGoogleHTTPClient` of `src/unnamed/part_004` (lines
173-200): build the assertion, sign it, exchange it, wrap the access
token in a static-token client.  Besides the result it returns the trace
of collaborator calls made.  Logging is omitted.  Note the source
function has no `TokenCache` parameter and never touches a
cache, although its test (`src/unnamed/part_005`, line 134) and its
caller (`src/google/services/google_base_service_client.go`, line 55)
pass one. -/
def GenerateGoogleHTTPClient (env : FactoryEnv)
    (targetServiceAccount userEmail scopes : String)
    (tokenURL : List String) (now : Int) :
    Except GoError HttpClient × List NetEvent :=
  match createJWTAssertion targetServiceAccount userEmail scopes now with
  | .error e => (.error (.errorString ("error creating JWT assertion: " ++ e)), [])
  | .ok jwtAssertion =>
    let name := "projects/-/serviceAccounts/" ++ targetServiceAccount
    match env.signJwt name jwtAssertion with
    | .error e =>
      (.error (.errorString ("error signing JWT: " ++ e)),
       [.signJwtCall name jwtAssertion])
    | .ok signedJwt =>
      let tokenUrl :=
        match tokenURL with
        | [] => "https://oauth2.googleapis.com/token"
        | u :: _ => u
      match env.postForm tokenUrl
          [("grant_type", "urn:ietf:params:oauth:grant-type:jwt-bearer"),
           ("assertion", signedJwt)] with
      | .error e =>
        (.error (.errorString ("error posting to token endpoint: " ++ e)),
         [.signJwtCall name jwtAssertion, .tokenPostCall tokenUrl signedJwt])
      | .ok resp =>
        match getAccessToken resp with
        | .error err =>
          (.error err,
           [.signJwtCall name jwtAssertion, .tokenPostCall tokenUrl signedJwt])
        | .ok accessToken =>
          (.ok { bearerToken := accessToken },
           [.signJwtCall name jwtAssertion, .tokenPostCall tokenUrl signedJwt])

/-- Test fixture mirroring the repository's own test environment
(`src/unnamed/part_005`): the mock IAM client signs everything as
`mocked_signed_jwt` and the mock token endpoint answers 200 with
`access_token = mocked_access_token`. -/
def mockFactoryEnv : FactoryEnv where
  signJwt := fun _ _ => .ok "mocked_signed_jwt"
  postForm := fun _ _ =>
    .ok { statusCode := 200
          body := "\x7b\"access_token\":\"mocked_access_token\"\x7d" }

/-- The response a `net/http.ResponseWriter` ends up with: status code
and written body. -/
structure HttpResponseWritten where
  status : Int
  body : String
deriving DecidableEq, Repr

/-- Embeds `net/http.Error(w, msg, code)`: sets the status code and
writes the message followed by a newline. -/
def httpError (message : String) (code : Int) : HttpResponseWritten :=
  { status := code, body := message ++ "\n" }

/-- Embeds `HandleError` of `src/google/apierrors/apierrors.go` (lines
49-60), restricted to what it writes to the `ResponseWriter` (the
logging calls are observability only): a `*GoogleAPIError` gets the
generic message with its own status code, any other error gets a generic
500. -/
def HandleError (err : GoError) : HttpResponseWritten :=
  match err with
  | .apiError e =>
    httpError "An error occurred while processing your request" e.statusCode
  | .errorString _ =>
    httpError "Internal server error" 500

end GoSpec

namespace GoSpec

/-- Appending on the left is cancellative for strings. -/
theorem string_append_cancel_left (a b c : String) : a ++ b = a ++ c ↔ b = c := by
  constructor
  · intro h
    have hd := congrArg String.data h
    simp only [String.data_append] at hd
    exact String.ext (List.append_cancel_left hd)
  · intro h
    rw [h]

/-- Two scope lists give the same cache key exactly when their
comma-joins coincide. -/
theorem getKey_eq_iff (u : String) (s1 s2 : List String) :
    getKey u s1 = getKey u s2 ↔
      String.intercalate "," s1 = String.intercalate "," s2 := by
  unfold getKey
  exact string_append_cancel_left (u ++ "|") _ _

/-- A token with a non-empty access token whose expiry is at least ten
seconds away is `Valid`. -/
theorem token_valid_of_fresh (t : Token) (now e : Int)
    (h1 : t.accessToken ≠ "") (h2 : t.expiry = some e) (h3 : now + 10 ≤ e) :
    t.Valid now = true := by
  simp only [Token.Valid, Token.expired, h2, Bool.and_eq_true, bne_iff_ne, ne_eq,
    Bool.not_eq_true]
  exact ⟨h1, by simp; omega⟩

end GoSpec

namespace GoSpec

/-- Claim C3, amended: for all (identity, scopes, token) such that the
token has a non-empty access token and its expiry lies at least ten
seconds in the future at lookup time (the oauth2 library's early-expiry
delta), `SetToken` followed by `GetToken` with the same identity and
scope list returns `(token, true)`. -/
theorem SetToken_GetToken_roundtrip_fresh
    (c : TokenCache) (id : String) (scopes : List String) (tok : Token) (now e : Int)
    (h1 : tok.accessToken ≠ "") (h2 : tok.expiry = some e) (h3 : now + 10 ≤ e) :
    (((c.SetToken id scopes tok).GetToken id scopes now).1 = some tok) ∧
    (((c.SetToken id scopes tok).GetToken id scopes now).2.1 = true) := by
  have hv := token_valid_of_fresh tok now e h1 h2 h3
  simp [TokenCache.GetToken, TokenCache.SetToken, hv]

/-- Claim C2, amended: cache key derivation is order-sensitive, not
order-independent.  Starting from the empty cache, `GetToken(id, s1)`
after `SetToken(id, s2, tok)` (tok unexpired, non-empty access token) is
a hit exactly when the comma-joins of `s1` and `s2` are equal — scope
lists presented in different orders map to different keys whenever their
comma-joins differ, and on a hit the stored token is returned. -/
theorem getToken_hit_iff_joined_scopes_equal
    (id : String) (s1 s2 : List String) (tok : Token) (now e : Int)
    (h1 : tok.accessToken ≠ "") (h2 : tok.expiry = some e) (h3 : now + 10 ≤ e) :
    (((NewTokenCache.SetToken id s2 tok).GetToken id s1 now).2.1
      = (String.intercalate "," s1 == String.intercalate "," s2)) ∧
    (String.intercalate "," s1 = String.intercalate "," s2 →
      ((NewTokenCache.SetToken id s2 tok).GetToken id s1 now).1 = some tok) := by
  have hv := token_valid_of_fresh tok now e h1 h2 h3
  by_cases hj : String.intercalate "," s1 = String.intercalate "," s2
  · have hk : getKey id s1 = getKey id s2 := (getKey_eq_iff id s1 s2).mpr hj
    refine ⟨?_, fun _ => ?_⟩ <;>
      simp [TokenCache.GetToken, TokenCache.SetToken, NewTokenCache, hk, hv, hj]
  · have hk : ¬ getKey id s1 = getKey id s2 := fun h => hj ((getKey_eq_iff id s1 s2).mp h)
    refine ⟨?_, fun h => absurd h hj⟩
    simp [TokenCache.GetToken, TokenCache.SetToken, NewTokenCache, hk, hj]

/-- Claim C4: lazy expiry eviction.  For every key holding a token whose
expiry is in the past, `GetToken` returns `(nil, false)` and deletes the
entry as a side effect of that same call, so a subsequent `GetToken` for
the same key also returns false — the entry is removed, not merely
hidden. -/
theorem getToken_expired_evicts
    (c : TokenCache) (id : String) (scopes : List String) (tok : Token) (e now : Int)
    (hstored : c.tokens (getKey id scopes) = some tok)
    (hexp : tok.expiry = some e) (hpast : e < now) :
    ((c.GetToken id scopes now).1 = none) ∧
    ((c.GetToken id scopes now).2.1 = false) ∧
    ((c.GetToken id scopes now).2.2.tokens (getKey id scopes) = none) ∧
    (((c.GetToken id scopes now).2.2.GetToken id scopes now).1 = none) ∧
    (((c.GetToken id scopes now).2.2.GetToken id scopes now).2.1 = false) := by
  have hexpd : tok.expired now = true := by
    simp [Token.expired, hexp]
    omega
  have hv : tok.Valid now = false := by
    simp [Token.Valid, hexpd]
  simp [TokenCache.GetToken, hstored, hv]

/-- Claim C5: cache hit validity invariant.  Whenever `GetToken` reports
`found = true` it also returns a token, and any token `GetToken` returns
is `Valid` at the time of the call (not expired, non-empty access
token) — this holds for every reachable cache state, so no sequence of
`SetToken`/`GetToken` operations can make a caller observe an expired
token as a hit. -/
theorem getToken_hit_implies_valid
    (c : TokenCache) (id : String) (scopes : List String) (now : Int) (tok : Token) :
    ((c.GetToken id scopes now).2.1 = true → ((c.GetToken id scopes now).1).isSome = true) ∧
    ((c.GetToken id scopes now).1 = some tok →
      tok.Valid now = true ∧ tok.expired now = false ∧ tok.accessToken ≠ "") := by
  cases hc : c.tokens (getKey id scopes) with
  | none => simp [TokenCache.GetToken, hc]
  | some t =>
    by_cases hv : t.Valid now = true
    · constructor
      · intro _
        simp [TokenCache.GetToken, hc, hv]
      · intro h
        have ht : t = tok := by simpa [TokenCache.GetToken, hc, hv] using h
        subst ht
        have hparts := hv
        simp only [Token.Valid, Bool.and_eq_true, bne_iff_ne, ne_eq,
          Bool.not_eq_true] at hparts
        exact ⟨hv, by simpa using hparts.2, hparts.1⟩
    · have hv' : t.Valid now = false := by simpa using hv
      simp [TokenCache.GetToken, hc, hv']

end GoSpec

namespace GoSpec

/-- Claim C2, counterexample: with an unexpired token, `GetToken(id,
["a","b"])` after `SetToken(id, ["b","a"], tok)` returns `(nil, false)`,
not `(tok, true)` as the claim states — the two orders derive different
cache keys because `getKey` joins the scopes without sorting them. -/
theorem getToken_reordered_scopes_misses :
    ((NewTokenCache.SetToken "id" ["b", "a"] ⟨"tok", some 3600⟩).GetToken "id" ["a", "b"] 0).2.1 = false ∧
    ((NewTokenCache.SetToken "id" ["b", "a"] ⟨"tok", some 3600⟩).GetToken "id" ["a", "b"] 0).1 = none ∧
    getKey "id" ["a", "b"] ≠ getKey "id" ["b", "a"] := by
  decide

/-- Claim C2 witness: the amended theorem applied at identity `id`,
scope lists `["a","b"]` and `["b","a"]` and a fresh token. -/
theorem getToken_hit_iff_joined_scopes_equal_witness :
    ((NewTokenCache.SetToken "id" ["b", "a"] ⟨"T", some 3600⟩).GetToken "id" ["a", "b"] 0).2.1
      = (String.intercalate "," ["a", "b"] == String.intercalate "," ["b", "a"]) :=
  (getToken_hit_iff_joined_scopes_equal "id" ["a", "b"] ["b", "a"] ⟨"T", some 3600⟩ 0 3600
    (by decide) rfl (by decide)).1

/-- Claim C3, counterexample: a token whose expiry (5) is in the future
of the lookup time (0) still misses, because `oauth2.Token.Valid`
subtracts the 10-second early-expiry delta; and a token with a far-future
expiry but an empty access token also misses.  The claim as stated
("expiry in the future" suffices for `(token, true)`) is therefore false
on the code. -/
theorem cache_roundtrip_future_expiry_fails :
    (0 : Int) < 5 ∧
    ((NewTokenCache.SetToken "id" ["s"] ⟨"T", some 5⟩).GetToken "id" ["s"] 0).2.1 = false ∧
    ((NewTokenCache.SetToken "id" ["s"] ⟨"", some 3600⟩).GetToken "id" ["s"] 0).2.1 = false := by
  decide

/-- Claim C3 witness: the amended round-trip theorem applied to the
token `("T", expiry 3600)` at lookup time 0. -/
theorem SetToken_GetToken_roundtrip_fresh_witness :
    (((NewTokenCache.SetToken "u" ["scope1", "scope2"] ⟨"T", some 3600⟩).GetToken "u" ["scope1", "scope2"] 0).1
      = some ⟨"T", some 3600⟩) ∧
    (((NewTokenCache.SetToken "u" ["scope1", "scope2"] ⟨"T", some 3600⟩).GetToken "u" ["scope1", "scope2"] 0).2.1 = true) :=
  SetToken_GetToken_roundtrip_fresh NewTokenCache "u" ["scope1", "scope2"] ⟨"T", some 3600⟩ 0 3600
    (by decide) rfl (by decide)

/-- Claim C4 witness: the eviction theorem applied to a cache holding a
token that expired at time 0, looked up at time 100. -/
theorem getToken_expired_evicts_witness :
    (((NewTokenCache.SetToken "u" ["s"] ⟨"T", some 0⟩).GetToken "u" ["s"] 100).1 = none) ∧
    (((NewTokenCache.SetToken "u" ["s"] ⟨"T", some 0⟩).GetToken "u" ["s"] 100).2.1 = false) ∧
    (((NewTokenCache.SetToken "u" ["s"] ⟨"T", some 0⟩).GetToken "u" ["s"] 100).2.2.tokens (getKey "u" ["s"]) = none) ∧
    ((((NewTokenCache.SetToken "u" ["s"] ⟨"T", some 0⟩).GetToken "u" ["s"] 100).2.2.GetToken "u" ["s"] 100).1 = none) ∧
    ((((NewTokenCache.SetToken "u" ["s"] ⟨"T", some 0⟩).GetToken "u" ["s"] 100).2.2.GetToken "u" ["s"] 100).2.1 = false) :=
  getToken_expired_evicts (NewTokenCache.SetToken "u" ["s"] ⟨"T", some 0⟩) "u" ["s"]
    ⟨"T", some 0⟩ 0 100 (by decide) rfl (by decide)

/-- Claim C5 witness: the invariant theorem applied to a cache holding
the fresh token `("T", expiry 3600)`, looked up at time 0. -/
theorem getToken_hit_implies_valid_witness :
    (((NewTokenCache.SetToken "u" ["s"] ⟨"T", some 3600⟩).GetToken "u" ["s"] 0).1).isSome = true ∧
    (Token.Valid ⟨"T", some 3600⟩ 0 = true ∧ Token.expired ⟨"T", some 3600⟩ 0 = false ∧
      (Token.accessToken ⟨"T", some 3600⟩) ≠ "") :=
  ⟨(getToken_hit_implies_valid (NewTokenCache.SetToken "u" ["s"] ⟨"T", some 3600⟩) "u" ["s"] 0
      ⟨"T", some 3600⟩).1 (by decide),
   (getToken_hit_implies_valid (NewTokenCache.SetToken "u" ["s"] ⟨"T", some 3600⟩) "u" ["s"] 0
      ⟨"T", some 3600⟩).2 (by decide)⟩

/-- Claim C10: implicit cache-key collision.  Because the key joins the
scope list with commas, the distinct scope lists `["a,b"]` and
`["a","b"]` derive the same key, so `GetToken(id, ["a","b"])` after
`SetToken(id, ["a,b"], tok)` with `tok` unexpired returns `(tok, true)`
even though the two scope sets differ. -/
theorem comma_join_collision_hit :
    getKey "id" ["a,b"] = getKey "id" ["a", "b"] ∧
    (["a,b"] ≠ (["a", "b"] : List String)) ∧
    ((NewTokenCache.SetToken "id" ["a,b"] ⟨"T", some 3600⟩).GetToken "id" ["a", "b"] 0).1
      = some ⟨"T", some 3600⟩ ∧
    ((NewTokenCache.SetToken "id" ["a,b"] ⟨"T", some 3600⟩).GetToken "id" ["a", "b"] 0).2.1 = true := by
  decide

end GoSpec

namespace GoSpec

/-- Claim C6: assertion-builder validation.  `createJWTAssertion`
succeeds exactly when all of the target service account, acting user
email, and scopes are non-empty — in particular `Build("", "user",
"scope")`, `Build("sa", "", "scope")` and `Build("sa", "user", "")` all
fail, and `Build("sa", "user", "scope")` succeeds.  (The error the code
produces is the validation error of the spec's taxonomy.) -/
theorem createJWTAssertion_validation :
    (∀ (tsa ue sc : String) (now : Int),
      (createJWTAssertion tsa ue sc now).isOk
        = (!(tsa == "") && !(ue == "") && !(sc == ""))) ∧
    (createJWTAssertion "" "user" "scope" 0).isOk = false ∧
    (createJWTAssertion "sa" "" "scope" 0).isOk = false ∧
    (createJWTAssertion "sa" "user" "" 0).isOk = false ∧
    (createJWTAssertion "sa" "user" "scope" 0).isOk = true := by
  refine ⟨?_, by decide, by decide, by decide, by decide⟩
  intro tsa ue sc now
  by_cases h1 : tsa = "" <;> by_cases h2 : ue = "" <;> by_cases h3 : sc = "" <;>
    simp [createJWTAssertion, h1, h2, h3, Except.isOk, Except.toBool]

/-- Claim C7: JWT assertion contents.  Every successful build produces a
claim set with `iat` equal to the current time, `exp` equal to `iat`
plus exactly one hour (3600 seconds), and `aud` equal to the fixed
OAuth2 token endpoint identifier (the code never overrides it; the
`tokenURL` override of the factory changes only where the exchange is
posted). -/
theorem createJWTAssertion_claim_fields
    (tsa ue sc : String) (now : Int) (c : JWTClaims)
    (h : createJWTAssertion tsa ue sc now = .ok c) :
    c.iat = now ∧ c.exp = now + 3600 ∧
    c.aud = "https://oauth2.googleapis.com/token" ∧
    c.iss = tsa ∧ c.sub = ue ∧ c.scope = sc := by
  unfold createJWTAssertion at h
  split at h
  · exact absurd h (by simp)
  · cases h
    simp

end GoSpec

namespace GoSpec

/-- Claim C7 witness: the claim-fields theorem applied to the successful
build at `("sa", "user", "scope")` and time 0. -/
theorem createJWTAssertion_claim_fields_witness :
    ({ iss := "sa", sub := "user", scope := "scope"
       aud := "https://oauth2.googleapis.com/token"
       iat := 0, exp := 3600 } : JWTClaims).iat = 0 ∧
    ({ iss := "sa", sub := "user", scope := "scope"
       aud := "https://oauth2.googleapis.com/token"
       iat := 0, exp := 3600 } : JWTClaims).exp = 0 + 3600 ∧
    ({ iss := "sa", sub := "user", scope := "scope"
       aud := "https://oauth2.googleapis.com/token"
       iat := 0, exp := 3600 } : JWTClaims).aud = "https://oauth2.googleapis.com/token" ∧
    ({ iss := "sa", sub := "user", scope := "scope"
       aud := "https://oauth2.googleapis.com/token"
       iat := 0, exp := 3600 } : JWTClaims).iss = "sa" ∧
    ({ iss := "sa", sub := "user", scope := "scope"
       aud := "https://oauth2.googleapis.com/token"
       iat := 0, exp := 3600 } : JWTClaims).sub = "user" ∧
    ({ iss := "sa", sub := "user", scope := "scope"
       aud := "https://oauth2.googleapis.com/token"
       iat := 0, exp := 3600 } : JWTClaims).scope = "scope" :=
  createJWTAssertion_claim_fields "sa" "user" "scope" 0 _ rfl

/-- Claim C8, amended: for every token-endpoint response, the exchange
fails with `UpstreamAPIError(statusCode, body)` exactly when the status
is not 200 (`http.StatusOK`) — not "non-2xx" — preserving that status
code and body (a 400 with body `bad request` yields
`UpstreamAPIError(400, "bad request")`).  On a 200 response the body is
JSON-decoded: an object with a string `access_token` yields that token,
a body that is not valid JSON yields a wrapped unmarshal error (never an
`UpstreamAPIError`), and a missing `access_token` field is NOT an error:
it yields the empty string. -/
theorem getAccessToken_status_contract :
    ∀ resp : HttpResp,
      (isUpstreamError (getAccessToken resp) = (resp.statusCode != 200)) ∧
      (resp.statusCode ≠ 200 →
        getAccessToken resp = .error (.apiError ⟨resp.statusCode, resp.body, "", ""⟩)) ∧
      getAccessToken ⟨200, "\x7b\"access_token\":\"T\"\x7d"⟩ = .ok "T" ∧
      getAccessToken ⟨400, "bad request"⟩ = .error (.apiError ⟨400, "bad request", "", ""⟩) ∧
      getAccessToken ⟨200, "not json"⟩
        = .error (.errorString "error unmarshaling token response: invalid JSON in token response") ∧
      getAccessToken ⟨200, "\x7b\x7d"⟩ = .ok "" := by
  intro resp
  refine ⟨?_, fun h => by simp [getAccessToken, h], rfl, rfl, rfl, rfl⟩
  by_cases h : resp.statusCode = 200
  · cases hd : decodeAccessTokenResponse resp.body <;>
      simp [getAccessToken, isUpstreamError, h, hd]
  · simp [getAccessToken, isUpstreamError, h, bne_iff_ne]

/-- Claim C8, counterexample: a 204 response is 2xx, yet the code fails
it with `UpstreamAPIError(204, body)` because it tests `!= 200`, and a
200 response with body lacking the `access_token` field succeeds with an
empty token instead of failing with a malformed-response error — both
contradict the claim as stated. -/
theorem getAccessToken_claim_counterexample :
    ((200 : Int) ≤ 204 ∧ (204 : Int) < 300) ∧
    getAccessToken ⟨204, "no content"⟩ = .error (.apiError ⟨204, "no content", "", ""⟩) ∧
    isUpstreamError (getAccessToken ⟨204, "no content"⟩) = true ∧
    getAccessToken ⟨200, "\x7b\x7d"⟩ = .ok "" :=
  ⟨by decide, rfl, rfl, rfl⟩

/-- Claim C8 witness: the status-contract theorem applied to the
response `(400, "bad request")`. -/
theorem getAccessToken_status_contract_witness :
    getAccessToken ⟨400, "bad request"⟩
      = .error (.apiError ⟨400, "bad request", "", ""⟩) :=
  (getAccessToken_status_contract ⟨400, "bad request"⟩).2.1 (by decide)

/-- Claim C9: error-response noninterference toward end clients.  For
every `GoogleAPIError`, `HandleError` writes the error's original status
code with a fixed generic message; the written body is identical for any
two `GoogleAPIError` values (so it is independent of the internal `Body`
field, which is only logged); and every non-`GoogleAPIError` error
yields a generic 500 response. -/
theorem HandleError_response_contract :
    (∀ e : GoogleAPIError,
      HandleError (.apiError e)
        = ⟨e.statusCode, "An error occurred while processing your request\n"⟩) ∧
    (∀ e1 e2 : GoogleAPIError,
      (HandleError (.apiError e1)).body = (HandleError (.apiError e2)).body) ∧
    (∀ msg : String, HandleError (.errorString msg) = ⟨500, "Internal server error\n"⟩) :=
  ⟨fun _ => rfl, fun _ _ => rfl, fun _ => rfl⟩

/-- Claim C1, code evidence: running the embedded
`GenerateGoogleHTTPClient` against the repository's own mock environment
(mock signer returning `mocked_signed_jwt`, token endpoint answering 200
with `mocked_access_token`) succeeds, and its complete collaborator
trace is exactly one signer call followed by one token-endpoint POST —
it contains no cache read or store.  The function is pure in this model,
so an immediately repeated call with identical arguments performs the
same signer and token-endpoint calls again: the token is never stored in
any `TokenCache` and the second call is not a cache hit, contradicting
the claim (the code, whose own test and caller pass a `TokenCache`
argument this function does not accept, is the slip). -/
theorem GenerateGoogleHTTPClient_no_cache_interaction :
    GenerateGoogleHTTPClient mockFactoryEnv "test-service-account" "test-user@example.com"
        "test-scope" ["https://token.test"] 0
      = (.ok ⟨"mocked_access_token"⟩,
         [.signJwtCall "projects/-/serviceAccounts/test-service-account"
            ⟨"test-service-account", "test-user@example.com", "test-scope",
             "https://oauth2.googleapis.com/token", 0, 3600⟩,
          .tokenPostCall "https://token.test" "mocked_signed_jwt"]) ∧
    ((GenerateGoogleHTTPClient mockFactoryEnv "test-service-account" "test-user@example.com"
        "test-scope" ["https://token.test"] 0).2.filter NetEvent.isCacheEvent = []) :=
  ⟨rfl, rfl⟩

end GoSpec
